import Mathlib

/-!
Shallow embedding of the basis-conversion core of the ee_math C++ library
(vec / mat / quat containers, signed-axis basis descriptors, the
to_basis / from_basis conversion family and the rotation-representation
conversions), together with theorems settling the specification claims.

Scalar components are modelled by an arbitrary commutative ring (the C++
code is generic over an arithmetic type T); trigonometric functions used
by the rotation formulas are passed explicitly and instantiated with the
real functions in the theorems.
-/

/-- Three-component vector, mirroring `vec<T, 3>` (fields x, y, z alias
`data[0..2]`). -/
@[ext]
structure Vec3 (α : Type) where
  x : α
  y : α
  z : α
  deriving DecidableEq, Repr

/-- Index access `v(d)`, mirroring `operator()(std::size_t d)` returning
`data[d]`; only indices 0, 1, 2 occur in the embedded code. -/
def Vec3.nth {α : Type} (v : Vec3 α) : Nat → α
  | 0 => v.x
  | 1 => v.y
  | _ => v.z

/-- The six signed unit-axis tags xpos, ypos, zpos, xneg, yneg, zneg. -/
inductive Axis : Type
  | xpos | ypos | zpos | xneg | yneg | zneg
  deriving DecidableEq, Repr, Fintype

/-- The constant integer unit vector `v<int>` carried by each axis tag. -/
def Axis.v : Axis → Vec3 Int
  | .xpos => ⟨1, 0, 0⟩
  | .ypos => ⟨0, 1, 0⟩
  | .zpos => ⟨0, 0, 1⟩
  | .xneg => ⟨-1, 0, 0⟩
  | .yneg => ⟨0, -1, 0⟩
  | .zneg => ⟨0, 0, -1⟩

/-- Cross product of 3-component vectors (vec_functions.hpp). -/
def cross {α : Type} [CommRing α] (v1 v2 : Vec3 α) : Vec3 α :=
  ⟨v1.nth 1 * v2.nth 2 - v1.nth 2 * v2.nth 1,
   v1.nth 2 * v2.nth 0 - v1.nth 0 * v2.nth 2,
   v1.nth 0 * v2.nth 1 - v1.nth 1 * v2.nth 0⟩

/-- Dot product (vec_functions.hpp), for vec<T, 3>. -/
def dot {α : Type} [CommRing α] (v1 v2 : Vec3 α) : α :=
  v1.x * v2.x + v1.y * v2.y + v1.z * v2.z

/-- Squared magnitude `mag2` (vec_functions.hpp), for vec<T, 3>. -/
def mag2 {α : Type} [CommRing α] (v : Vec3 α) : α :=
  v.x * v.x + v.y * v.y + v.z * v.z

/-- basis descriptor `basis<I, J, K>`: an ordered triplet of axis tags. -/
@[ext]
structure basis where
  i : Axis
  j : Axis
  k : Axis
  deriving DecidableEq, Repr, Fintype

/-- Handedness flag: `cross(i::v<int>, j::v<int>) == k::v<int>` (basis.hpp). -/
def basis.is_right_handed (B : basis) : Bool :=
  cross B.i.v B.j.v == B.k.v

/-- `is_left_handed = ! is_right_handed` (basis.hpp). -/
def basis.is_left_handed (B : basis) : Bool :=
  ! B.is_right_handed

/-- The distinguished initial basis `basis<xpos, ypos, zpos>`. -/
def initial_basis : basis :=
  ⟨.xpos, .ypos, .zpos⟩

/-- Slot of the nonzero component of an axis-tag vector, mirroring the
pattern `(a(0) ? 0 : 0) + (a(1) ? 1 : 0) + (a(2) ? 2 : 0)` used for the
`i_index` / `j_index` / `k_index` constants of `to_basis`. -/
def tagIndex (a : Vec3 Int) : Nat :=
  (if a.nth 0 ≠ 0 then 0 else 0) +
  (if a.nth 1 ≠ 0 then 1 else 0) +
  (if a.nth 2 ≠ 0 then 2 else 0)

/-- Sign of an axis-tag vector, mirroring `a(0) + a(1) + a(2)` used for the
`i_switch` / `j_switch` / `k_switch` constants of `to_basis`. -/
def tagSwitch (a : Vec3 Int) : Int :=
  a.nth 0 + a.nth 1 + a.nth 2

/-- Which of B's axes (0 = I, 1 = J, 2 = K) occupies initial-basis slot n,
mirroring `(i(n) ? 0 : 0) + (j(n) ? 1 : 0) + (k(n) ? 2 : 0)` used for the
`x_index` / `y_index` / `z_index` constants of `from_basis`. -/
def fromIndex (B : basis) (n : Nat) : Nat :=
  (if B.i.v.nth n ≠ 0 then 0 else 0) +
  (if B.j.v.nth n ≠ 0 then 1 else 0) +
  (if B.k.v.nth n ≠ 0 then 2 else 0)

/-- Sign used by `from_basis` for initial-basis slot n, mirroring
`i(n) + j(n) + k(n)`. -/
def fromSwitch (B : basis) (n : Nat) : Int :=
  B.i.v.nth n + B.j.v.nth n + B.k.v.nth n

/-- Validity of a basis (the documented caller constraint of basis.hpp):
the three axis tags must be linearly independent, which for signed unit axes
means they occupy three distinct coordinate slots. -/
def basis.valid (B : basis) : Prop :=
  tagIndex B.i.v ≠ tagIndex B.j.v ∧
  tagIndex B.i.v ≠ tagIndex B.k.v ∧
  tagIndex B.j.v ≠ tagIndex B.k.v

instance (B : basis) : Decidable B.valid := by
  unfold basis.valid
  infer_instance

/-- `to_basis<B>` for vec<T, 3> (axis_angle_functions.hpp): component p of
the result is `p_switch * v(p_index)`. -/
def to_basis_vec {α : Type} [CommRing α] (B : basis) (v : Vec3 α) : Vec3 α :=
  ⟨(tagSwitch B.i.v : α) * v.nth (tagIndex B.i.v),
   (tagSwitch B.j.v : α) * v.nth (tagIndex B.j.v),
   (tagSwitch B.k.v : α) * v.nth (tagIndex B.k.v)⟩

/-- `from_basis<B>` for vec<T, 3> (axis_angle_functions.hpp): component n of
the result is `n_switch * v(n_index)` with the transposed index/sign rule. -/
def from_basis_vec {α : Type} [CommRing α] (B : basis) (v : Vec3 α) : Vec3 α :=
  ⟨(fromSwitch B 0 : α) * v.nth (fromIndex B 0),
   (fromSwitch B 1 : α) * v.nth (fromIndex B 1),
   (fromSwitch B 2 : α) * v.nth (fromIndex B 2)⟩

/-- Quaternion, mirroring `quat<T>` (fields x, y, z, w alias `data[0..3]`). -/
@[ext]
structure Quat (α : Type) where
  x : α
  y : α
  z : α
  w : α
  deriving DecidableEq, Repr

/-- Index access `q(d)`, mirroring `operator()(std::size_t d)` returning
`data[d]`. -/
def Quat.nth {α : Type} (q : Quat α) : Nat → α
  | 0 => q.x
  | 1 => q.y
  | 2 => q.z
  | _ => q.w

/-- The `xyz` union member of `quat<T>`: the vector part. -/
def Quat.xyz {α : Type} (q : Quat α) : Vec3 α :=
  ⟨q.x, q.y, q.z⟩

/-- 4x4 matrix, mirroring `mat<T, 4, 4>`: the 16 fields are the flat
`data[0..15]` array in declaration order (column-major storage,
`EE_MATRIX_COLUMN_MAJOR`). -/
@[ext]
structure Mat4 (α : Type) where
  d0 : α
  d1 : α
  d2 : α
  d3 : α
  d4 : α
  d5 : α
  d6 : α
  d7 : α
  d8 : α
  d9 : α
  d10 : α
  d11 : α
  d12 : α
  d13 : α
  d14 : α
  d15 : α
  deriving DecidableEq, Repr

/-- Flat access `data[n]`. -/
def Mat4.atData {α : Type} (m : Mat4 α) : Nat → α
  | 0 => m.d0
  | 1 => m.d1
  | 2 => m.d2
  | 3 => m.d3
  | 4 => m.d4
  | 5 => m.d5
  | 6 => m.d6
  | 7 => m.d7
  | 8 => m.d8
  | 9 => m.d9
  | 10 => m.d10
  | 11 => m.d11
  | 12 => m.d12
  | 13 => m.d13
  | 14 => m.d14
  | _ => m.d15

/-- Element access `m(r, c) = data[mat_rc_to_i({r, c}, {4, 4})]` with the
column-major index map `coords(0) + size(0) * coords(1)` (mat.hpp). -/
def Mat4.entry {α : Type} (m : Mat4 α) (r c : Nat) : α :=
  m.atData (r + 4 * c)

/-- The `angle_switch` constant of the quaternion `to_basis` / `from_basis`
overloads: `initial_basis::is_right_handed == B::is_right_handed ? 1 : -1`. -/
def angle_switch (B : basis) : Int :=
  if initial_basis.is_right_handed = B.is_right_handed then 1 else -1

/-- `to_basis<B>` for quat<T> (axis_angle_functions.hpp): the vector part
follows the vector rule with each switch multiplied by `angle_switch`; the
scalar part `q(3)` is copied. -/
def to_basis_quat {α : Type} [CommRing α] (B : basis) (q : Quat α) : Quat α :=
  ⟨((tagSwitch B.i.v * angle_switch B : Int) : α) * q.nth (tagIndex B.i.v),
   ((tagSwitch B.j.v * angle_switch B : Int) : α) * q.nth (tagIndex B.j.v),
   ((tagSwitch B.k.v * angle_switch B : Int) : α) * q.nth (tagIndex B.k.v),
   q.nth 3⟩

/-- `from_basis<B>` for quat<T> (axis_angle_functions.hpp). -/
def from_basis_quat {α : Type} [CommRing α] (B : basis) (q : Quat α) : Quat α :=
  ⟨((fromSwitch B 0 * angle_switch B : Int) : α) * q.nth (fromIndex B 0),
   ((fromSwitch B 1 * angle_switch B : Int) : α) * q.nth (fromIndex B 1),
   ((fromSwitch B 2 * angle_switch B : Int) : α) * q.nth (fromIndex B 2),
   q.nth 3⟩

/-- `to_basis<B>` for mat<T, 4, 4> (axis_angle_functions.hpp): the 16
initializer expressions in flat data order. -/
def to_basis_mat {α : Type} [CommRing α] (B : basis) (m : Mat4 α) : Mat4 α :=
  ⟨((tagSwitch B.i.v * tagSwitch B.i.v : Int) : α) *
     m.entry (tagIndex B.i.v) (tagIndex B.i.v),
   ((tagSwitch B.i.v * tagSwitch B.j.v : Int) : α) *
     m.entry (tagIndex B.j.v) (tagIndex B.i.v),
   ((tagSwitch B.i.v * tagSwitch B.k.v : Int) : α) *
     m.entry (tagIndex B.k.v) (tagIndex B.i.v),
   ((tagSwitch B.i.v : Int) : α) * m.entry 3 (tagIndex B.i.v),
   ((tagSwitch B.j.v * tagSwitch B.i.v : Int) : α) *
     m.entry (tagIndex B.i.v) (tagIndex B.j.v),
   ((tagSwitch B.j.v * tagSwitch B.j.v : Int) : α) *
     m.entry (tagIndex B.j.v) (tagIndex B.j.v),
   ((tagSwitch B.j.v * tagSwitch B.k.v : Int) : α) *
     m.entry (tagIndex B.k.v) (tagIndex B.j.v),
   ((tagSwitch B.j.v : Int) : α) * m.entry 3 (tagIndex B.j.v),
   ((tagSwitch B.k.v * tagSwitch B.i.v : Int) : α) *
     m.entry (tagIndex B.i.v) (tagIndex B.k.v),
   ((tagSwitch B.k.v * tagSwitch B.j.v : Int) : α) *
     m.entry (tagIndex B.j.v) (tagIndex B.k.v),
   ((tagSwitch B.k.v * tagSwitch B.k.v : Int) : α) *
     m.entry (tagIndex B.k.v) (tagIndex B.k.v),
   ((tagSwitch B.k.v : Int) : α) * m.entry 3 (tagIndex B.k.v),
   ((tagSwitch B.i.v : Int) : α) * m.entry (tagIndex B.i.v) 3,
   ((tagSwitch B.j.v : Int) : α) * m.entry (tagIndex B.j.v) 3,
   ((tagSwitch B.k.v : Int) : α) * m.entry (tagIndex B.k.v) 3,
   m.entry 3 3⟩

/-- `from_basis<B>` for mat<T, 4, 4> (axis_angle_functions.hpp): the 16
initializer expressions in flat data order, using the transposed
index/sign rule. -/
def from_basis_mat {α : Type} [CommRing α] (B : basis) (m : Mat4 α) : Mat4 α :=
  ⟨((fromSwitch B 0 * fromSwitch B 0 : Int) : α) *
     m.entry (fromIndex B 0) (fromIndex B 0),
   ((fromSwitch B 0 * fromSwitch B 1 : Int) : α) *
     m.entry (fromIndex B 1) (fromIndex B 0),
   ((fromSwitch B 0 * fromSwitch B 2 : Int) : α) *
     m.entry (fromIndex B 2) (fromIndex B 0),
   ((fromSwitch B 0 : Int) : α) * m.entry 3 (fromIndex B 0),
   ((fromSwitch B 1 * fromSwitch B 0 : Int) : α) *
     m.entry (fromIndex B 0) (fromIndex B 1),
   ((fromSwitch B 1 * fromSwitch B 1 : Int) : α) *
     m.entry (fromIndex B 1) (fromIndex B 1),
   ((fromSwitch B 1 * fromSwitch B 2 : Int) : α) *
     m.entry (fromIndex B 2) (fromIndex B 1),
   ((fromSwitch B 1 : Int) : α) * m.entry 3 (fromIndex B 1),
   ((fromSwitch B 2 * fromSwitch B 0 : Int) : α) *
     m.entry (fromIndex B 0) (fromIndex B 2),
   ((fromSwitch B 2 * fromSwitch B 1 : Int) : α) *
     m.entry (fromIndex B 1) (fromIndex B 2),
   ((fromSwitch B 2 * fromSwitch B 2 : Int) : α) *
     m.entry (fromIndex B 2) (fromIndex B 2),
   ((fromSwitch B 2 : Int) : α) * m.entry 3 (fromIndex B 2),
   ((fromSwitch B 0 : Int) : α) * m.entry (fromIndex B 0) 3,
   ((fromSwitch B 1 : Int) : α) * m.entry (fromIndex B 1) 3,
   ((fromSwitch B 2 : Int) : α) * m.entry (fromIndex B 2) 3,
   m.entry 3 3⟩

/-- Euler-angles template defaults its basis parameter to
`basis<xpos, ypos, zpos>` (euler_angles.hpp). -/
def euler_angles_default_basis : basis :=
  ⟨.xpos, .ypos, .zpos⟩

/-- Tait-Bryan-angles template defaults its basis parameter to
`basis<zpos, xpos, ypos>` (euler_angles.hpp). -/
def tait_bryan_angles_default_basis : basis :=
  ⟨.zpos, .xpos, .ypos⟩

/-- scoords_usphere defaults its basis parameter to `initial_basis`
(scoords.hpp). -/
def scoords_usphere_default_basis : basis :=
  initial_basis

/-- scoords defaults its basis parameter to `initial_basis` (scoords.hpp). -/
def scoords_default_basis : basis :=
  initial_basis

/-- The p-th axis tag of a basis (0 = I, 1 = J, 2 = K); a derived accessor
used to state the conversion lemmas uniformly. -/
def basis.axis (B : basis) : Nat → Axis
  | 0 => B.i
  | 1 => B.j
  | _ => B.k

/-- Switch of the p-th axis of B as used by `to_basis`, extended by 1 at the
translation slot p = 3 (where the matrix overloads apply no sign). -/
def tSw (B : basis) (p : Nat) : Int :=
  if p < 3 then tagSwitch (B.axis p).v else 1

/-- Index of the p-th axis of B as used by `to_basis`, extended by 3 at the
translation slot p = 3. -/
def tIx (B : basis) (p : Nat) : Nat :=
  if p < 3 then tagIndex (B.axis p).v else 3

/-- Switch for initial-basis slot n as used by `from_basis`, extended by 1 at
the translation slot n = 3. -/
def fSw (B : basis) (n : Nat) : Int :=
  if n < 3 then fromSwitch B n else 1

/-- Index for initial-basis slot n as used by `from_basis`, extended by 3 at
the translation slot n = 3. -/
def fIx (B : basis) (n : Nat) : Nat :=
  if n < 3 then fromIndex B n else 3

/-- Scalar multiplication of a 3-component vector, mirroring the
componentwise `scalar * vec` operator (cw::mul). -/
def smul_vec {α : Type} [CommRing α] (s : α) (v : Vec3 α) : Vec3 α :=
  ⟨s * v.x, s * v.y, s * v.z⟩

/-- Componentwise `vec / scalar` (cw::div). -/
def vec_div {α : Type} [Field α] (v : Vec3 α) (s : α) : Vec3 α :=
  ⟨v.x / s, v.y / s, v.z / s⟩

/-- One-component vector, mirroring the `vec<T, 1>` specialization. -/
structure Vec1 (α : Type) where
  x : α
  deriving DecidableEq, Repr

/-- Two-component vector, mirroring the `vec<T, 2>` specialization. -/
structure Vec2 (α : Type) where
  x : α
  y : α
  deriving DecidableEq, Repr

/-- Four-component vector, mirroring the `vec<T, 4>` specialization. -/
structure Vec4 (α : Type) where
  x : α
  y : α
  z : α
  w : α
  deriving DecidableEq, Repr

/-- Explicit bool conversion of the general `vec<T, D>` template: iterate the
data array and return false at the first truthy (nonzero) element, true when
all elements are zero. -/
def vec_bool_general {α : Type} [DecidableEq α] [Zero α] : List α → Bool
  | [] => true
  | e :: rest => if e ≠ 0 then false else vec_bool_general rest

/-- Explicit bool conversion of the `vec<T, 1>` specialization: `return x`,
contextually converted (true iff nonzero). -/
def vec1_bool {α : Type} [DecidableEq α] [Zero α] (v : Vec1 α) : Bool :=
  decide (v.x ≠ 0)

/-- Explicit bool conversion of the `vec<T, 2>` specialization:
`return x || y`. -/
def vec2_bool {α : Type} [DecidableEq α] [Zero α] (v : Vec2 α) : Bool :=
  decide (v.x ≠ 0) || decide (v.y ≠ 0)

/-- Explicit bool conversion of the `vec<T, 3>` specialization:
`return x || y || z`. -/
def vec3_bool {α : Type} [DecidableEq α] [Zero α] (v : Vec3 α) : Bool :=
  decide (v.x ≠ 0) || decide (v.y ≠ 0) || decide (v.z ≠ 0)

/-- Explicit bool conversion of the `vec<T, 4>` specialization:
`return x || y || z || w`. -/
def vec4_bool {α : Type} [DecidableEq α] [Zero α] (v : Vec4 α) : Bool :=
  decide (v.x ≠ 0) || decide (v.y ≠ 0) || decide (v.z ≠ 0) || decide (v.w ≠ 0)

/-- Rotation as an (axis, angle) pair (axis_angle.hpp); axis should be a
unit vector. -/
structure AxisAngle (α : Type) where
  axis : Vec3 α
  angle : α

/-- The 4x4 identity matrix, in flat column-major data order. -/
def Mat4.identity {α : Type} [Zero α] [One α] : Mat4 α :=
  ⟨1, 0, 0, 0, 0, 1, 0, 0, 0, 0, 1, 0, 0, 0, 0, 1⟩

/-- `mat_from(axis_angle)` (axis_angle_functions.hpp), Rodrigues' rotation
formula; the trigonometric functions are passed explicitly. The 16
initializer expressions are given in flat data order. -/
def mat_from_aa {α : Type} [CommRing α] (cos sin : α → α) (aa : AxisAngle α) :
    Mat4 α :=
  ⟨aa.axis.nth 0 * aa.axis.nth 0 * (1 - cos aa.angle) + cos aa.angle,
   aa.axis.nth 0 * aa.axis.nth 1 * (1 - cos aa.angle) +
     aa.axis.nth 2 * sin aa.angle,
   aa.axis.nth 0 * aa.axis.nth 2 * (1 - cos aa.angle) -
     aa.axis.nth 1 * sin aa.angle,
   0,
   aa.axis.nth 0 * aa.axis.nth 1 * (1 - cos aa.angle) -
     aa.axis.nth 2 * sin aa.angle,
   aa.axis.nth 1 * aa.axis.nth 1 * (1 - cos aa.angle) + cos aa.angle,
   aa.axis.nth 1 * aa.axis.nth 2 * (1 - cos aa.angle) +
     aa.axis.nth 0 * sin aa.angle,
   0,
   aa.axis.nth 0 * aa.axis.nth 2 * (1 - cos aa.angle) +
     aa.axis.nth 1 * sin aa.angle,
   aa.axis.nth 1 * aa.axis.nth 2 * (1 - cos aa.angle) -
     aa.axis.nth 0 * sin aa.angle,
   aa.axis.nth 2 * aa.axis.nth 2 * (1 - cos aa.angle) + cos aa.angle,
   0,
   0, 0, 0, 1⟩

/-- Proper Euler angles (alpha about z, beta about x-prime, gamma about
z-second), euler_angles.hpp. -/
structure EulerAngles (α : Type) where
  alpha : α
  beta : α
  gamma : α

/-- `quat_from(euler_angles)` (basis.hpp revision of euler_angles
conversions): half-angle closed form in the initial basis, then
`from_basis<B>`. -/
def quat_from_euler {α : Type} [Field α] (cos sin : α → α) (B : basis)
    (ea : EulerAngles α) : Quat α :=
  from_basis_quat B
    ⟨cos (1 / 2 * ea.alpha) * sin (1 / 2 * ea.beta) * cos (1 / 2 * ea.gamma) +
       sin (1 / 2 * ea.alpha) * sin (1 / 2 * ea.beta) * sin (1 / 2 * ea.gamma),
     sin (1 / 2 * ea.alpha) * sin (1 / 2 * ea.beta) * cos (1 / 2 * ea.gamma) -
       cos (1 / 2 * ea.alpha) * sin (1 / 2 * ea.beta) * sin (1 / 2 * ea.gamma),
     sin (1 / 2 * ea.alpha) * cos (1 / 2 * ea.beta) * cos (1 / 2 * ea.gamma) +
       cos (1 / 2 * ea.alpha) * cos (1 / 2 * ea.beta) * sin (1 / 2 * ea.gamma),
     cos (1 / 2 * ea.alpha) * cos (1 / 2 * ea.beta) * cos (1 / 2 * ea.gamma) -
       sin (1 / 2 * ea.alpha) * cos (1 / 2 * ea.beta) * sin (1 / 2 * ea.gamma)⟩

/-- Orientation part of spherical coordinates (scoords.hpp). -/
@[ext]
structure ScoordsUsphere (α : Type) where
  theta : α
  phi : α

/-- Spherical coordinates: radius plus unit-sphere orientation
(scoords.hpp). -/
@[ext]
structure Scoords (α : Type) where
  r : α
  usphere : ScoordsUsphere α

/-- `vec_from(scoords_usphere)` (scoords_functions.hpp): the initial-basis
direction vector, then `from_basis<B>`. -/
def vec_from_scu {α : Type} [CommRing α] (cos sin : α → α) (B : basis)
    (scu : ScoordsUsphere α) : Vec3 α :=
  from_basis_vec B
    ⟨cos scu.theta * sin scu.phi, sin scu.theta * sin scu.phi, cos scu.phi⟩

/-- Model of the C library function `std::atan2(y, x)` over exact reals:
the angle of the point (x, y), in (-pi, pi]. -/
noncomputable def atan2 (y x : ℝ) : ℝ :=
  if 0 < x then Real.arctan (y / x)
  else if x < 0 then
    if 0 ≤ y then Real.arctan (y / x) + Real.pi
    else Real.arctan (y / x) - Real.pi
  else
    if 0 < y then Real.pi / 2
    else if y < 0 then -(Real.pi / 2)
    else 0

/-- Magnitude `mag` (vec_functions.hpp): square root of `mag2`. -/
noncomputable def mag (v : Vec3 ℝ) : ℝ :=
  Real.sqrt (mag2 v)

/-- `detail::scoords_usphere_from` (scoords_functions.hpp):
`theta = atan2(p.y, p.x)`, `phi = acos(p.z)`; acos is passed explicitly. -/
noncomputable def detail_scoords_usphere_from (acos : ℝ → ℝ) (p : Vec3 ℝ) :
    ScoordsUsphere ℝ :=
  ⟨atan2 p.y p.x, acos p.z⟩

/-- `scoords_usphere_from<B>` (scoords_functions.hpp): `to_basis<B>` then the
detail computation; input must be normalized. -/
noncomputable def scoords_usphere_from (acos : ℝ → ℝ) (B : basis)
    (xyz : Vec3 ℝ) : ScoordsUsphere ℝ :=
  detail_scoords_usphere_from acos (to_basis_vec B xyz)

/-- `scoords_from<B>` (scoords_functions.hpp): `to_basis<B>`, then magnitude,
then the detail computation on the vector whose z-component alone is divided
by the magnitude. -/
noncomputable def scoords_from (acos : ℝ → ℝ) (B : basis) (xyz : Vec3 ℝ) :
    Scoords ℝ :=
  ⟨mag (to_basis_vec B xyz),
   detail_scoords_usphere_from acos
     ⟨(to_basis_vec B xyz).x, (to_basis_vec B xyz).y,
      (to_basis_vec B xyz).z / mag (to_basis_vec B xyz)⟩⟩

/-- claim C3: `basis<I,J,K>::is_right_handed` equals `cross(I,J) == K` on the
tags' integer unit vectors; it is true for the three cyclic permutations of
(xpos, ypos, zpos) and false for the three odd permutations, and
`is_left_handed` is its negation. -/
theorem c3_handedness :
    (∀ I J K : Axis,
      (basis.mk I J K).is_right_handed = (cross I.v J.v == K.v)) ∧
    (basis.mk .xpos .ypos .zpos).is_right_handed = true ∧
    (basis.mk .ypos .zpos .xpos).is_right_handed = true ∧
    (basis.mk .zpos .xpos .ypos).is_right_handed = true ∧
    (basis.mk .xpos .zpos .ypos).is_right_handed = false ∧
    (basis.mk .zpos .ypos .xpos).is_right_handed = false ∧
    (basis.mk .ypos .xpos .zpos).is_right_handed = false ∧
    (∀ I J K : Axis,
      (basis.mk I J K).is_left_handed = ! (basis.mk I J K).is_right_handed) := by
  decide

/-- claim C4: `basis<zpos, xpos, ypos>` is right-handed, and `to_basis` of
the vector (1, 2, 3) in that basis is exactly (3, 1, 2). -/
theorem c4_scenario :
    (basis.mk .zpos .xpos .ypos).is_right_handed = true ∧
    to_basis_vec (basis.mk .zpos .xpos .ypos) (⟨1, 2, 3⟩ : Vec3 Int) =
      ⟨3, 1, 2⟩ := by
  decide

/-- claim C6 counterexample: the Tait-Bryan angles template does not default
its basis parameter to the initial basis; it defaults to
`basis<zpos, xpos, ypos>`. -/
theorem c6_counterexample :
    tait_bryan_angles_default_basis ≠ initial_basis := by
  decide

/-- claim C6 (amended): euler_angles, scoords_usphere and scoords default
their basis parameter to the initial basis `basis<xpos, ypos, zpos>`, while
tait_bryan_angles defaults it to `basis<zpos, xpos, ypos>`. -/
theorem c6_default_bases :
    euler_angles_default_basis = initial_basis ∧
    tait_bryan_angles_default_basis = basis.mk .zpos .xpos .ypos ∧
    scoords_usphere_default_basis = initial_basis ∧
    scoords_default_basis = initial_basis := by
  decide

/-- For every valid basis the `to_basis` and `from_basis` index maps are
mutually inverse permutations of the four slots (the translation slot 3 is
fixed), and the paired switches multiply to 1; established by checking the
216 possible tag triplets. -/
theorem basis_facts_fin : ∀ B : basis, B.valid → ∀ n : Fin 4,
    fIx B n.val < 4 ∧ tIx B n.val < 4 ∧
    (n.val < 3 → fIx B n.val < 3) ∧ (n.val < 3 → tIx B n.val < 3) ∧
    tIx B (fIx B n.val) = n.val ∧ fIx B (tIx B n.val) = n.val ∧
    fSw B n.val * tSw B (fIx B n.val) = 1 ∧
    tSw B n.val * fSw B (tIx B n.val) = 1 := by
  set_option maxRecDepth 8000 in decide

/-- Nat-level restatement of `basis_facts_fin`. -/
theorem basis_facts (B : basis) (hB : B.valid) (n : Nat) (hn : n < 4) :
    fIx B n < 4 ∧ tIx B n < 4 ∧
    (n < 3 → fIx B n < 3) ∧ (n < 3 → tIx B n < 3) ∧
    tIx B (fIx B n) = n ∧ fIx B (tIx B n) = n ∧
    fSw B n * tSw B (fIx B n) = 1 ∧
    tSw B n * fSw B (tIx B n) = 1 :=
  basis_facts_fin B hB ⟨n, hn⟩

/-- The angle switch is always plus or minus one, so it squares to 1. -/
theorem angle_switch_mul_self (B : basis) :
    angle_switch B * angle_switch B = 1 := by
  unfold angle_switch
  split <;> decide

/-- Component form of the vector `to_basis`. -/
theorem to_basis_vec_nth {α : Type} [CommRing α] (B : basis) (v : Vec3 α)
    (n : Nat) (hn : n < 3) :
    (to_basis_vec B v).nth n = ((tSw B n : Int) : α) * v.nth (tIx B n) := by
  interval_cases n <;>
    simp [to_basis_vec, Vec3.nth, tSw, tIx, basis.axis]

/-- Component form of the vector `from_basis`. -/
theorem from_basis_vec_nth {α : Type} [CommRing α] (B : basis) (v : Vec3 α)
    (n : Nat) (hn : n < 3) :
    (from_basis_vec B v).nth n = ((fSw B n : Int) : α) * v.nth (fIx B n) := by
  interval_cases n <;>
    simp [from_basis_vec, Vec3.nth, fSw, fIx]

/-- Applying the vector `to_basis` then `from_basis` restores the input. -/
theorem rt_vec_ft {α : Type} [CommRing α] (B : basis) (hB : B.valid)
    (v : Vec3 α) : from_basis_vec B (to_basis_vec B v) = v := by
  have key : ∀ n : Nat, n < 3 →
      (from_basis_vec B (to_basis_vec B v)).nth n = v.nth n := by
    intro n hn
    obtain ⟨h1, h2, h3, h4, h5, h6, h7, h8⟩ := basis_facts B hB n (by omega)
    rw [from_basis_vec_nth B _ n hn,
      to_basis_vec_nth B v (fIx B n) (h3 hn), h5,
      ← mul_assoc, ← Int.cast_mul, h7, Int.cast_one, one_mul]
  ext
  · exact key 0 (by omega)
  · exact key 1 (by omega)
  · exact key 2 (by omega)

/-- Applying the vector `from_basis` then `to_basis` restores the input. -/
theorem rt_vec_tf {α : Type} [CommRing α] (B : basis) (hB : B.valid)
    (v : Vec3 α) : to_basis_vec B (from_basis_vec B v) = v := by
  have key : ∀ n : Nat, n < 3 →
      (to_basis_vec B (from_basis_vec B v)).nth n = v.nth n := by
    intro n hn
    obtain ⟨h1, h2, h3, h4, h5, h6, h7, h8⟩ := basis_facts B hB n (by omega)
    rw [to_basis_vec_nth B _ n hn,
      from_basis_vec_nth B v (tIx B n) (h4 hn), h6,
      ← mul_assoc, ← Int.cast_mul, h8, Int.cast_one, one_mul]
  ext
  · exact key 0 (by omega)
  · exact key 1 (by omega)
  · exact key 2 (by omega)

/-- Component form of the quaternion `to_basis` (vector part). -/
theorem to_basis_quat_nth {α : Type} [CommRing α] (B : basis) (q : Quat α)
    (n : Nat) (hn : n < 3) :
    (to_basis_quat B q).nth n =
      ((tSw B n * angle_switch B : Int) : α) * q.nth (tIx B n) := by
  interval_cases n <;>
    simp [to_basis_quat, Quat.nth, tSw, tIx, basis.axis]

/-- Component form of the quaternion `from_basis` (vector part). -/
theorem from_basis_quat_nth {α : Type} [CommRing α] (B : basis) (q : Quat α)
    (n : Nat) (hn : n < 3) :
    (from_basis_quat B q).nth n =
      ((fSw B n * angle_switch B : Int) : α) * q.nth (fIx B n) := by
  interval_cases n <;>
    simp [from_basis_quat, Quat.nth, fSw, fIx]

/-- Both quaternion conversions copy the scalar slot `q(3)` unchanged. -/
theorem quat_nth_three {α : Type} [CommRing α] (B : basis) (q : Quat α) :
    (to_basis_quat B q).nth 3 = q.nth 3 ∧
    (from_basis_quat B q).nth 3 = q.nth 3 :=
  ⟨rfl, rfl⟩

/-- Applying the quaternion `to_basis` then `from_basis` restores the
input. -/
theorem rt_quat_ft {α : Type} [CommRing α] (B : basis) (hB : B.valid)
    (q : Quat α) : from_basis_quat B (to_basis_quat B q) = q := by
  have key : ∀ n : Nat, n < 3 →
      (from_basis_quat B (to_basis_quat B q)).nth n = q.nth n := by
    intro n hn
    obtain ⟨h1, h2, h3, h4, h5, h6, h7, h8⟩ := basis_facts B hB n (by omega)
    rw [from_basis_quat_nth B _ n hn,
      to_basis_quat_nth B q (fIx B n) (h3 hn), h5,
      ← mul_assoc, ← Int.cast_mul]
    have hsw : fSw B n * angle_switch B * (tSw B (fIx B n) * angle_switch B)
        = 1 := by
      rw [mul_mul_mul_comm, h7, angle_switch_mul_self, one_mul]
    rw [hsw, Int.cast_one, one_mul]
  ext
  · exact key 0 (by omega)
  · exact key 1 (by omega)
  · exact key 2 (by omega)
  · exact (quat_nth_three B (to_basis_quat B q)).2

/-- Applying the quaternion `from_basis` then `to_basis` restores the
input. -/
theorem rt_quat_tf {α : Type} [CommRing α] (B : basis) (hB : B.valid)
    (q : Quat α) : to_basis_quat B (from_basis_quat B q) = q := by
  have key : ∀ n : Nat, n < 3 →
      (to_basis_quat B (from_basis_quat B q)).nth n = q.nth n := by
    intro n hn
    obtain ⟨h1, h2, h3, h4, h5, h6, h7, h8⟩ := basis_facts B hB n (by omega)
    rw [to_basis_quat_nth B _ n hn,
      from_basis_quat_nth B q (tIx B n) (h4 hn), h6,
      ← mul_assoc, ← Int.cast_mul]
    have hsw : tSw B n * angle_switch B * (fSw B (tIx B n) * angle_switch B)
        = 1 := by
      rw [mul_mul_mul_comm, h8, angle_switch_mul_self, one_mul]
    rw [hsw, Int.cast_one, one_mul]
  ext
  · exact key 0 (by omega)
  · exact key 1 (by omega)
  · exact key 2 (by omega)
  · exact (quat_nth_three B (from_basis_quat B q)).1

set_option maxHeartbeats 1000000 in
/-- Entry form of the matrix `to_basis`: entry (r, c) is the input entry at
the permuted indices scaled by the row and column switches. -/
theorem to_basis_mat_entry {α : Type} [CommRing α] (B : basis) (m : Mat4 α)
    (r c : Nat) (hr : r < 4) (hc : c < 4) :
    (to_basis_mat B m).entry r c =
      ((tSw B c * tSw B r : Int) : α) * m.entry (tIx B r) (tIx B c) := by
  interval_cases r <;> interval_cases c <;>
    first
    | rfl
    | simp [tSw, tIx, Mat4.entry, Mat4.atData, to_basis_mat, basis.axis]

set_option maxHeartbeats 1000000 in
/-- Entry form of the matrix `from_basis`. -/
theorem from_basis_mat_entry {α : Type} [CommRing α] (B : basis) (m : Mat4 α)
    (r c : Nat) (hr : r < 4) (hc : c < 4) :
    (from_basis_mat B m).entry r c =
      ((fSw B c * fSw B r : Int) : α) * m.entry (fIx B r) (fIx B c) := by
  interval_cases r <;> interval_cases c <;>
    first
    | rfl
    | simp [fSw, fIx, Mat4.entry, Mat4.atData, from_basis_mat]

/-- Matrices agreeing on all 16 entries are equal. -/
theorem Mat4.entry_ext {α : Type} {m1 m2 : Mat4 α}
    (h : ∀ r c : Nat, r < 4 → c < 4 → m1.entry r c = m2.entry r c) :
    m1 = m2 := by
  ext
  · exact h 0 0 (by omega) (by omega)
  · exact h 1 0 (by omega) (by omega)
  · exact h 2 0 (by omega) (by omega)
  · exact h 3 0 (by omega) (by omega)
  · exact h 0 1 (by omega) (by omega)
  · exact h 1 1 (by omega) (by omega)
  · exact h 2 1 (by omega) (by omega)
  · exact h 3 1 (by omega) (by omega)
  · exact h 0 2 (by omega) (by omega)
  · exact h 1 2 (by omega) (by omega)
  · exact h 2 2 (by omega) (by omega)
  · exact h 3 2 (by omega) (by omega)
  · exact h 0 3 (by omega) (by omega)
  · exact h 1 3 (by omega) (by omega)
  · exact h 2 3 (by omega) (by omega)
  · exact h 3 3 (by omega) (by omega)

/-- Applying the matrix `to_basis` then `from_basis` restores the input. -/
theorem rt_mat_ft {α : Type} [CommRing α] (B : basis) (hB : B.valid)
    (m : Mat4 α) : from_basis_mat B (to_basis_mat B m) = m := by
  apply Mat4.entry_ext
  intro r c hr hc
  obtain ⟨hr1, hr2, hr3, hr4, hr5, hr6, hr7, hr8⟩ := basis_facts B hB r hr
  obtain ⟨hc1, hc2, hc3, hc4, hc5, hc6, hc7, hc8⟩ := basis_facts B hB c hc
  rw [from_basis_mat_entry B _ r c hr hc,
    to_basis_mat_entry B m (fIx B r) (fIx B c) hr1 hc1, hr5, hc5,
    ← mul_assoc, ← Int.cast_mul]
  have hsw : fSw B c * fSw B r * (tSw B (fIx B c) * tSw B (fIx B r)) = 1 := by
    rw [mul_mul_mul_comm, hc7, hr7, one_mul]
  rw [hsw, Int.cast_one, one_mul]

/-- Applying the matrix `from_basis` then `to_basis` restores the input. -/
theorem rt_mat_tf {α : Type} [CommRing α] (B : basis) (hB : B.valid)
    (m : Mat4 α) : to_basis_mat B (from_basis_mat B m) = m := by
  apply Mat4.entry_ext
  intro r c hr hc
  obtain ⟨hr1, hr2, hr3, hr4, hr5, hr6, hr7, hr8⟩ := basis_facts B hB r hr
  obtain ⟨hc1, hc2, hc3, hc4, hc5, hc6, hc7, hc8⟩ := basis_facts B hB c hc
  rw [to_basis_mat_entry B _ r c hr hc,
    from_basis_mat_entry B m (tIx B r) (tIx B c) hr2 hc2, hr6, hc6,
    ← mul_assoc, ← Int.cast_mul]
  have hsw : tSw B c * tSw B r * (fSw B (tIx B c) * fSw B (tIx B r)) = 1 := by
    rw [mul_mul_mul_comm, hc8, hr8, one_mul]
  rw [hsw, Int.cast_one, one_mul]

/-- claim C1: for every 3-component vector, every 4x4 matrix and every
quaternion over any commutative ring, and every valid basis B, composing
`to_basis` with `from_basis` in either order restores the input exactly. -/
theorem c1_roundtrip {α : Type} [CommRing α] (B : basis) (hB : B.valid)
    (v : Vec3 α) (M : Mat4 α) (q : Quat α) :
    from_basis_vec B (to_basis_vec B v) = v ∧
    to_basis_vec B (from_basis_vec B v) = v ∧
    from_basis_mat B (to_basis_mat B M) = M ∧
    to_basis_mat B (from_basis_mat B M) = M ∧
    from_basis_quat B (to_basis_quat B q) = q ∧
    to_basis_quat B (from_basis_quat B q) = q :=
  ⟨rt_vec_ft B hB v, rt_vec_tf B hB v, rt_mat_ft B hB M, rt_mat_tf B hB M,
   rt_quat_ft B hB q, rt_quat_tf B hB q⟩

/-- Witness for claim C1, at the valid left-handed basis
`basis<zpos, xneg, ypos>` and concrete integer inputs. -/
theorem c1_roundtrip_witness :
    (basis.mk .zpos .xneg .ypos).valid ∧
    (from_basis_vec (basis.mk .zpos .xneg .ypos)
        (to_basis_vec (basis.mk .zpos .xneg .ypos) (⟨1, 2, 3⟩ : Vec3 Int)) =
      ⟨1, 2, 3⟩ ∧
    to_basis_vec (basis.mk .zpos .xneg .ypos)
        (from_basis_vec (basis.mk .zpos .xneg .ypos) (⟨1, 2, 3⟩ : Vec3 Int)) =
      ⟨1, 2, 3⟩ ∧
    from_basis_mat (basis.mk .zpos .xneg .ypos)
        (to_basis_mat (basis.mk .zpos .xneg .ypos)
          (⟨1, 2, 3, 4, 5, 6, 7, 8, 9, 10, 11, 12, 13, 14, 15, 16⟩ :
            Mat4 Int)) =
      ⟨1, 2, 3, 4, 5, 6, 7, 8, 9, 10, 11, 12, 13, 14, 15, 16⟩ ∧
    to_basis_mat (basis.mk .zpos .xneg .ypos)
        (from_basis_mat (basis.mk .zpos .xneg .ypos)
          (⟨1, 2, 3, 4, 5, 6, 7, 8, 9, 10, 11, 12, 13, 14, 15, 16⟩ :
            Mat4 Int)) =
      ⟨1, 2, 3, 4, 5, 6, 7, 8, 9, 10, 11, 12, 13, 14, 15, 16⟩ ∧
    from_basis_quat (basis.mk .zpos .xneg .ypos)
        (to_basis_quat (basis.mk .zpos .xneg .ypos) (⟨1, 2, 3, 4⟩ : Quat Int)) =
      ⟨1, 2, 3, 4⟩ ∧
    to_basis_quat (basis.mk .zpos .xneg .ypos)
        (from_basis_quat (basis.mk .zpos .xneg .ypos)
          (⟨1, 2, 3, 4⟩ : Quat Int)) =
      ⟨1, 2, 3, 4⟩) :=
  ⟨by decide, c1_roundtrip (basis.mk .zpos .xneg .ypos) (by decide) _ _ _⟩

/-- claim C10: `to_basis` and `from_basis` at the initial basis
`basis<xpos, ypos, zpos>` are exact identity functions on vectors, 4x4
matrices and quaternions. -/
theorem c10_initial_basis_identity {α : Type} [CommRing α] (v : Vec3 α)
    (M : Mat4 α) (q : Quat α) :
    to_basis_vec initial_basis v = v ∧
    from_basis_vec initial_basis v = v ∧
    to_basis_mat initial_basis M = M ∧
    from_basis_mat initial_basis M = M ∧
    to_basis_quat initial_basis q = q ∧
    from_basis_quat initial_basis q = q := by
  refine ⟨?_, ?_, ?_, ?_, ?_, ?_⟩ <;>
    ext <;>
    simp [to_basis_vec, from_basis_vec, to_basis_mat, from_basis_mat,
      to_basis_quat, from_basis_quat, tagIndex, tagSwitch, fromIndex,
      fromSwitch, angle_switch, initial_basis, Axis.v, Vec3.nth, Quat.nth,
      Mat4.entry, Mat4.atData, basis.is_right_handed, cross]

/-- Every axis tag vector has its nonzero slot among 0, 1, 2. -/
theorem tagIndex_lt_three : ∀ a : Axis, tagIndex a.v < 3 := by
  decide

/-- The `to_basis` index map stays below 3 on indices below 3, for any
basis. -/
theorem tIx_lt_three (B : basis) (n : Nat) (hn : n < 3) : tIx B n < 3 := by
  unfold tIx
  rw [if_pos hn]
  exact tagIndex_lt_three (B.axis n)

/-- The vector part of a quaternion agrees with the quaternion on the first
three slots. -/
theorem quat_xyz_nth {α : Type} (q : Quat α) (n : Nat) (hn : n < 3) :
    q.xyz.nth n = q.nth n := by
  interval_cases n <;> rfl

/-- Component form of scalar multiplication. -/
theorem smul_vec_nth {α : Type} [CommRing α] (s : α) (v : Vec3 α) (n : Nat) :
    (smul_vec s v).nth n = s * v.nth n := by
  rcases n with _ | _ | n <;> rfl

/-- claim C2: both quaternion basis conversions keep the scalar component w
unchanged, and their vector part is the vector-overload mapping with every
per-axis sign additionally multiplied by the handedness factor
`angle_switch` (which is -1 exactly when B's handedness differs from the
initial basis's, and 1 otherwise). -/
theorem c2_quat_vector_rule {α : Type} [CommRing α] (B : basis) (hB : B.valid)
    (q : Quat α) :
    (to_basis_quat B q).w = q.w ∧
    (from_basis_quat B q).w = q.w ∧
    (to_basis_quat B q).xyz =
      smul_vec ((angle_switch B : Int) : α) (to_basis_vec B q.xyz) ∧
    (from_basis_quat B q).xyz =
      smul_vec ((angle_switch B : Int) : α) (from_basis_vec B q.xyz) := by
  refine ⟨rfl, rfl, ?_, ?_⟩
  · have key : ∀ n : Nat, n < 3 →
        (to_basis_quat B q).xyz.nth n =
          (smul_vec ((angle_switch B : Int) : α) (to_basis_vec B q.xyz)).nth
            n := by
      intro n hn
      rw [quat_xyz_nth _ n hn, to_basis_quat_nth B q n hn, smul_vec_nth,
        to_basis_vec_nth B q.xyz n hn,
        quat_xyz_nth q (tIx B n) (tIx_lt_three B n hn)]
      push_cast
      ring
    ext
    · exact key 0 (by omega)
    · exact key 1 (by omega)
    · exact key 2 (by omega)
  · have key : ∀ n : Nat, n < 3 →
        (from_basis_quat B q).xyz.nth n =
          (smul_vec ((angle_switch B : Int) : α) (from_basis_vec B q.xyz)).nth
            n := by
      intro n hn
      obtain ⟨h1, h2, h3, h4, h5, h6, h7, h8⟩ := basis_facts B hB n (by omega)
      rw [quat_xyz_nth _ n hn, from_basis_quat_nth B q n hn, smul_vec_nth,
        from_basis_vec_nth B q.xyz n hn,
        quat_xyz_nth q (fIx B n) (h3 hn)]
      push_cast
      ring
    ext
    · exact key 0 (by omega)
    · exact key 1 (by omega)
    · exact key 2 (by omega)

/-- Witness for claim C2, at the valid left-handed basis
`basis<zpos, xneg, ypos>` and a concrete integer quaternion. -/
theorem c2_quat_vector_rule_witness :
    (basis.mk .zpos .xneg .ypos).valid ∧
    ((to_basis_quat (basis.mk .zpos .xneg .ypos) (⟨1, 2, 3, 4⟩ : Quat Int)).w =
        (⟨1, 2, 3, 4⟩ : Quat Int).w ∧
    (from_basis_quat (basis.mk .zpos .xneg .ypos)
        (⟨1, 2, 3, 4⟩ : Quat Int)).w = (⟨1, 2, 3, 4⟩ : Quat Int).w ∧
    (to_basis_quat (basis.mk .zpos .xneg .ypos)
        (⟨1, 2, 3, 4⟩ : Quat Int)).xyz =
      smul_vec ((angle_switch (basis.mk .zpos .xneg .ypos) : Int) : Int)
        (to_basis_vec (basis.mk .zpos .xneg .ypos)
          (⟨1, 2, 3, 4⟩ : Quat Int).xyz) ∧
    (from_basis_quat (basis.mk .zpos .xneg .ypos)
        (⟨1, 2, 3, 4⟩ : Quat Int)).xyz =
      smul_vec ((angle_switch (basis.mk .zpos .xneg .ypos) : Int) : Int)
        (from_basis_vec (basis.mk .zpos .xneg .ypos)
          (⟨1, 2, 3, 4⟩ : Quat Int).xyz)) :=
  ⟨by decide, c2_quat_vector_rule (basis.mk .zpos .xneg .ypos) (by decide) _⟩

/-- claim C5 counterexample: on the specialized 3D vector the bool conversion
of the all-zero vector is false, refuting the claim that the conversion is
true exactly when all components are zero for every dimension. -/
theorem c5_counterexample :
    vec3_bool (⟨0, 0, 0⟩ : Vec3 Int) = false ∧
    ¬(vec3_bool (⟨0, 0, 0⟩ : Vec3 Int) = true ↔
      ((⟨0, 0, 0⟩ : Vec3 Int).x = 0 ∧ (⟨0, 0, 0⟩ : Vec3 Int).y = 0 ∧
        (⟨0, 0, 0⟩ : Vec3 Int).z = 0)) := by
  decide

/-- claim C5 (amended): the general-D bool conversion is true iff all
components are zero, while the specialized 1D, 2D, 3D and 4D conversions are
true iff at least one component is nonzero; the two families disagree. -/
theorem c5_bool_semantics {α : Type} [DecidableEq α] [Zero α] :
    (∀ l : List α, vec_bool_general l = l.all fun e => decide (e = 0)) ∧
    (∀ v : Vec1 α, vec1_bool v = ! decide (v.x = 0)) ∧
    (∀ v : Vec2 α, vec2_bool v = !(decide (v.x = 0) && decide (v.y = 0))) ∧
    (∀ v : Vec3 α, vec3_bool v =
      !(decide (v.x = 0) && decide (v.y = 0) && decide (v.z = 0))) ∧
    (∀ v : Vec4 α, vec4_bool v =
      !(decide (v.x = 0) && decide (v.y = 0) && decide (v.z = 0) &&
        decide (v.w = 0))) := by
  refine ⟨?_, ?_, ?_, ?_, ?_⟩
  · intro l
    induction l with
    | nil => rfl
    | cons e rest ih =>
      by_cases he : e = 0 <;> simp [vec_bool_general, he, ih]
  · intro v
    simp [vec1_bool]
  · intro v
    simp [vec2_bool]
  · intro v
    simp [vec3_bool, Bool.or_assoc, Bool.and_assoc]
  · intro v
    simp [vec4_bool, Bool.or_assoc, Bool.and_assoc]

/-- claim C8: the Rodrigues matrix of a zero-angle rotation about any unit
axis is the 4x4 identity, and the quaternion of the zero Euler angles in the
initial basis is the identity quaternion (0, 0, 0, 1). -/
theorem c8_zero_rotation_identities :
    (∀ axis : Vec3 ℝ, mag2 axis = 1 →
      mat_from_aa Real.cos Real.sin ⟨axis, 0⟩ = Mat4.identity) ∧
    quat_from_euler Real.cos Real.sin initial_basis ⟨0, 0, 0⟩ =
      ⟨0, 0, 0, 1⟩ := by
  constructor
  · intro axis h
    ext <;>
      simp [mat_from_aa, Mat4.identity, Vec3.nth, Real.cos_zero, Real.sin_zero]
  · ext <;>
      simp [quat_from_euler, from_basis_quat, fromIndex, fromSwitch,
        angle_switch, initial_basis, Axis.v, Vec3.nth, Quat.nth,
        Real.cos_zero, Real.sin_zero]

/-- Witness for claim C8, at the concrete unit axis (1, 0, 0). -/
theorem c8_zero_rotation_identities_witness :
    mag2 (⟨1, 0, 0⟩ : Vec3 ℝ) = 1 ∧
    mat_from_aa Real.cos Real.sin ⟨⟨1, 0, 0⟩, 0⟩ = Mat4.identity :=
  ⟨by norm_num [mag2],
   c8_zero_rotation_identities.1 ⟨1, 0, 0⟩ (by norm_num [mag2])⟩

/-- claim C7: `vec_from(scoords_usphere)` is the initial-basis direction
(cos theta sin phi, sin theta sin phi, cos phi) pushed through
`from_basis<B>`, and at B the initial basis, theta = 0, phi = pi / 2, every
component of the result is within 1e-9 of (1, 0, 0). -/
theorem c7_vec_from_scoords_usphere :
    (∀ (B : basis) (theta phi : ℝ),
      vec_from_scu Real.cos Real.sin B ⟨theta, phi⟩ =
        from_basis_vec B
          ⟨Real.cos theta * Real.sin phi, Real.sin theta * Real.sin phi,
           Real.cos phi⟩) ∧
    |(vec_from_scu Real.cos Real.sin initial_basis
        ⟨0, Real.pi / 2⟩).x - 1| ≤ 1e-9 ∧
    |(vec_from_scu Real.cos Real.sin initial_basis ⟨0, Real.pi / 2⟩).y| ≤
      1e-9 ∧
    |(vec_from_scu Real.cos Real.sin initial_basis ⟨0, Real.pi / 2⟩).z| ≤
      1e-9 := by
  have hval : vec_from_scu Real.cos Real.sin initial_basis
      ⟨0, Real.pi / 2⟩ = ⟨1, 0, 0⟩ := by
    ext <;>
      simp [vec_from_scu, from_basis_vec, fromIndex, fromSwitch,
        initial_basis, Axis.v, Vec3.nth, Real.cos_zero, Real.sin_zero,
        Real.sin_pi_div_two, Real.cos_pi_div_two]
  refine ⟨fun B theta phi => rfl, ?_, ?_, ?_⟩ <;> rw [hval] <;> norm_num

/-- Every axis-tag switch is plus or minus one, so it squares to 1. -/
theorem axis_switch_sq : ∀ a : Axis, tagSwitch a.v * tagSwitch a.v = 1 := by
  decide

set_option maxRecDepth 8000 in
/-- For a valid basis the three `to_basis` indices form one of the six
permutations of (0, 1, 2). -/
theorem tagIndex_perm : ∀ B : basis, B.valid →
    (tagIndex B.i.v = 0 ∧ tagIndex B.j.v = 1 ∧ tagIndex B.k.v = 2) ∨
    (tagIndex B.i.v = 0 ∧ tagIndex B.j.v = 2 ∧ tagIndex B.k.v = 1) ∨
    (tagIndex B.i.v = 1 ∧ tagIndex B.j.v = 0 ∧ tagIndex B.k.v = 2) ∨
    (tagIndex B.i.v = 1 ∧ tagIndex B.j.v = 2 ∧ tagIndex B.k.v = 0) ∨
    (tagIndex B.i.v = 2 ∧ tagIndex B.j.v = 0 ∧ tagIndex B.k.v = 1) ∨
    (tagIndex B.i.v = 2 ∧ tagIndex B.j.v = 1 ∧ tagIndex B.k.v = 0) := by
  decide

/-- The vector `to_basis` of a valid basis preserves the squared
magnitude. -/
theorem mag2_to_basis {α : Type} [CommRing α] (B : basis) (hB : B.valid)
    (v : Vec3 α) : mag2 (to_basis_vec B v) = mag2 v := by
  have ha : ((tagSwitch B.i.v : Int) : α) * ((tagSwitch B.i.v : Int) : α)
      = 1 := by
    rw [← Int.cast_mul, axis_switch_sq, Int.cast_one]
  have hb : ((tagSwitch B.j.v : Int) : α) * ((tagSwitch B.j.v : Int) : α)
      = 1 := by
    rw [← Int.cast_mul, axis_switch_sq, Int.cast_one]
  have hc : ((tagSwitch B.k.v : Int) : α) * ((tagSwitch B.k.v : Int) : α)
      = 1 := by
    rw [← Int.cast_mul, axis_switch_sq, Int.cast_one]
  rcases tagIndex_perm B hB with
    ⟨h1, h2, h3⟩ | ⟨h1, h2, h3⟩ | ⟨h1, h2, h3⟩ | ⟨h1, h2, h3⟩ |
    ⟨h1, h2, h3⟩ | ⟨h1, h2, h3⟩
  · simp only [mag2, to_basis_vec, h1, h2, h3, Vec3.nth]
    linear_combination (v.x * v.x) * ha + (v.y * v.y) * hb + (v.z * v.z) * hc
  · simp only [mag2, to_basis_vec, h1, h2, h3, Vec3.nth]
    linear_combination (v.x * v.x) * ha + (v.z * v.z) * hb + (v.y * v.y) * hc
  · simp only [mag2, to_basis_vec, h1, h2, h3, Vec3.nth]
    linear_combination (v.y * v.y) * ha + (v.x * v.x) * hb + (v.z * v.z) * hc
  · simp only [mag2, to_basis_vec, h1, h2, h3, Vec3.nth]
    linear_combination (v.y * v.y) * ha + (v.z * v.z) * hb + (v.x * v.x) * hc
  · simp only [mag2, to_basis_vec, h1, h2, h3, Vec3.nth]
    linear_combination (v.z * v.z) * ha + (v.x * v.x) * hb + (v.y * v.y) * hc
  · simp only [mag2, to_basis_vec, h1, h2, h3, Vec3.nth]
    linear_combination (v.z * v.z) * ha + (v.y * v.y) * hb + (v.x * v.x) * hc

/-- The squared magnitude of a nonzero real vector is positive. -/
theorem mag2_pos (v : Vec3 ℝ) (hv : v ≠ ⟨0, 0, 0⟩) : 0 < mag2 v := by
  have h : v.x ≠ 0 ∨ v.y ≠ 0 ∨ v.z ≠ 0 := by
    by_contra hcon
    push_neg at hcon
    exact hv (by ext <;> simp [hcon.1, hcon.2.1, hcon.2.2])
  unfold mag2
  rcases h with h | h | h
  · nlinarith [mul_self_nonneg v.y, mul_self_nonneg v.z, mul_self_pos.mpr h]
  · nlinarith [mul_self_nonneg v.x, mul_self_nonneg v.z, mul_self_pos.mpr h]
  · nlinarith [mul_self_nonneg v.x, mul_self_nonneg v.y, mul_self_pos.mpr h]

/-- Dividing both arguments of `atan2` by the same positive constant leaves
the result unchanged (scale invariance on each branch). -/
theorem atan2_div_pos (y x c : ℝ) (hc : 0 < c) :
    atan2 (y / c) (x / c) = atan2 y x := by
  have e1 : (0 < x / c) = (0 < x) := by
    rw [eq_iff_iff, lt_div_iff₀ hc, zero_mul]
  have e2 : (x / c < 0) = (x < 0) := by
    rw [eq_iff_iff, div_lt_iff₀ hc, zero_mul]
  have e3 : (0 ≤ y / c) = (0 ≤ y) := by
    rw [eq_iff_iff, le_div_iff₀ hc, zero_mul]
  have e4 : (0 < y / c) = (0 < y) := by
    rw [eq_iff_iff, lt_div_iff₀ hc, zero_mul]
  have e5 : (y / c < 0) = (y < 0) := by
    rw [eq_iff_iff, div_lt_iff₀ hc, zero_mul]
  have harg : x ≠ 0 → y / c / (x / c) = y / x := by
    intro hx
    have hc0 : c ≠ 0 := ne_of_gt hc
    field_simp
  unfold atan2
  simp only [e1, e2, e3, e4, e5]
  by_cases h1 : 0 < x
  · rw [if_pos h1, if_pos h1, harg (ne_of_gt h1)]
  · rw [if_neg h1, if_neg h1]
    by_cases h2 : x < 0
    · rw [if_pos h2, if_pos h2, harg (ne_of_lt h2)]
    · rw [if_neg h2, if_neg h2]

/-- Component form of `vec / scalar`. -/
theorem vec_div_nth {α : Type} [Field α] (v : Vec3 α) (s : α) (n : Nat) :
    (vec_div v s).nth n = v.nth n / s := by
  rcases n with _ | _ | n <;> rfl

/-- The vector `to_basis` commutes with division by a scalar. -/
theorem to_basis_vec_div {α : Type} [Field α] (B : basis) (v : Vec3 α)
    (s : α) : to_basis_vec B (vec_div v s) = vec_div (to_basis_vec B v) s := by
  ext
  · show (tagSwitch B.i.v : α) * (vec_div v s).nth (tagIndex B.i.v) =
      ((tagSwitch B.i.v : α) * v.nth (tagIndex B.i.v)) / s
    rw [vec_div_nth, mul_div_assoc]
  · show (tagSwitch B.j.v : α) * (vec_div v s).nth (tagIndex B.j.v) =
      ((tagSwitch B.j.v : α) * v.nth (tagIndex B.j.v)) / s
    rw [vec_div_nth, mul_div_assoc]
  · show (tagSwitch B.k.v : α) * (vec_div v s).nth (tagIndex B.k.v) =
      ((tagSwitch B.k.v : α) * v.nth (tagIndex B.k.v)) / s
    rw [vec_div_nth, mul_div_assoc]

/-- claim C9: for a nonzero real vector and a valid basis, `scoords_from`
(which leaves atan2's arguments unnormalized and divides only the
z-component by the magnitude) agrees exactly, over exact real arithmetic,
with the reference that returns radius `mag v` and the usphere part of the
fully normalized vector `v / mag v`; this holds for every choice of the
acos function since both sides feed it the same argument. -/
theorem c9_scoords_refinement (acos : ℝ → ℝ) (B : basis) (v : Vec3 ℝ)
    (hB : B.valid) (hv : v ≠ ⟨0, 0, 0⟩) :
    scoords_from acos B v =
      ⟨mag v, scoords_usphere_from acos B (vec_div v (mag v))⟩ := by
  have hm2 : mag2 (to_basis_vec B v) = mag2 v := mag2_to_basis B hB v
  have hmag : mag (to_basis_vec B v) = mag v := by
    unfold mag
    rw [hm2]
  have hpos : 0 < mag v := by
    unfold mag
    exact Real.sqrt_pos.mpr (mag2_pos v hv)
  unfold scoords_from scoords_usphere_from detail_scoords_usphere_from
  rw [to_basis_vec_div]
  ext
  · exact hmag
  · show atan2 (to_basis_vec B v).y (to_basis_vec B v).x =
      atan2 (vec_div (to_basis_vec B v) (mag v)).y
        (vec_div (to_basis_vec B v) (mag v)).x
    rw [show (vec_div (to_basis_vec B v) (mag v)).y =
        (to_basis_vec B v).y / mag v from rfl,
      show (vec_div (to_basis_vec B v) (mag v)).x =
        (to_basis_vec B v).x / mag v from rfl,
      atan2_div_pos _ _ _ hpos]
  · show acos ((to_basis_vec B v).z / mag (to_basis_vec B v)) =
      acos (vec_div (to_basis_vec B v) (mag v)).z
    rw [hmag]
    rfl

/-- Witness for claim C9, at the valid basis `basis<zpos, xneg, ypos>`, the
nonzero vector (1, 0, 0), and the identity function standing in for acos. -/
theorem c9_scoords_refinement_witness :
    (basis.mk .zpos .xneg .ypos).valid ∧
    (⟨1, 0, 0⟩ : Vec3 ℝ) ≠ ⟨0, 0, 0⟩ ∧
    scoords_from id (basis.mk .zpos .xneg .ypos) ⟨1, 0, 0⟩ =
      ⟨mag ⟨1, 0, 0⟩,
       scoords_usphere_from id (basis.mk .zpos .xneg .ypos)
         (vec_div ⟨1, 0, 0⟩ (mag ⟨1, 0, 0⟩))⟩ :=
  ⟨by decide, by simp,
   c9_scoords_refinement id (basis.mk .zpos .xneg .ypos) ⟨1, 0, 0⟩
     (by decide) (by simp)⟩
